import Mathlib

/-!
Verification of the `jtfo.logging` logging-configuration library
(`src/source/jtfo/logging/logging.py`).

The development shallowly embeds the library's formatting logic:

* `plainFormatSt` models `CustomFormatter.format`;
* `colourFormatSt` models `CustomColourFormatter.format`;
* `stdFormat` models the host facility's `logging.Formatter.format`
  (the stdlib code the two custom formatters delegate to);
* `embedFormat` models `CustomEmbedFormatter.format`;
* `emit` / `asyncGet` model `AsyncQueueHandler`;
* `is_docker` / `stream_supports_colour` model the colour-capability query,
  with the environment and filesystem state passed explicitly and
  exception propagation made explicit through `Except`.

Python string primitives used by the source (`str.splitlines(True)`,
`str.join`, `str.replace`, `re.sub`, slicing, `%`-style message assembly)
are embedded as executable Lean functions over `String` / `List Char`.
-/

/-- Python's truthiness test for an optional string attribute
(`None` and the empty string are falsy). -/
def optTruthy : Option String → Bool
  | none => false
  | some s => !(s == "")

/-- Python `sep.join(parts)`: the parts interleaved with the separator. -/
def pyJoin (sep : String) : List String → String
  | [] => ""
  | [s] => s
  | s :: rest => s ++ sep ++ pyJoin sep rest

/-- Concatenation of a list of strings (no separator). -/
def concatStrs : List String → String
  | [] => ""
  | s :: rest => s ++ concatStrs rest

/-- The line-boundary characters recognised by Python's `str.splitlines`. -/
def isLineBreakChar (c : Char) : Bool :=
  (c == '\n') || (c == '\r') || (c == '\x0b') || (c == '\x0c') ||
  (c == '\x1c') || (c == '\x1d') || (c == '\x1e') || (c == '\x85') ||
  (c == '\u2028') || (c == '\u2029')

/-- Worker for `splitlinesKeep`: scans the character list, accumulating the
current line (reversed) in `acc`; `"\r\n"` counts as a single boundary.
Mirrors CPython's `str.splitlines(keepends=True)`. -/
def splitLinesAux : List Char → List Char → List (List Char)
  | [], acc => if acc.isEmpty then [] else [acc.reverse]
  | '\r' :: '\n' :: rest, acc => (acc.reverse ++ ['\r', '\n']) :: splitLinesAux rest []
  | c :: rest, acc =>
    if isLineBreakChar c then (acc.reverse ++ [c]) :: splitLinesAux rest []
    else splitLinesAux rest (c :: acc)

/-- Python `s.splitlines(True)`: split into lines, keeping the line ends. -/
def splitlinesKeep (s : String) : List String :=
  (splitLinesAux s.data []).map fun l => ⟨l⟩

/-- `'  ' + '  '.join(text.splitlines(True))`: the two-space indentation used
by both text formatters for exception traces and raw payloads
(`logging.py` lines 124 and 130). -/
def indentBlock (s : String) : String :=
  "  " ++ pyJoin "  " (splitlinesKeep s)

/-- The exception block built by `CustomFormatter.format`
(lines 123-125): indented trace plus one trailing newline. -/
def plainExcText (e : String) : String :=
  indentBlock e ++ "\n"

/-- The raw-payload block built by `CustomFormatter.format`
(lines 129-131): leading newline, indented payload, trailing newline. -/
def rawBlock (p : String) : String :=
  "\n" ++ indentBlock p ++ "\n"

/-- A decimal digit character, `'0'`..`'9'`. -/
def digitChar (n : Nat) : Char := Char.ofNat (48 + n % 10)

/-- Two-digit zero-padded decimal rendering. -/
def pad2 (n : Nat) : String := ⟨[digitChar (n / 10), digitChar n]⟩

/-- Four-digit zero-padded decimal rendering. -/
def pad4 (n : Nat) : String :=
  ⟨[digitChar (n / 1000), digitChar (n / 100), digitChar (n / 10), digitChar n]⟩

/-- Modelled from the spec: the host facility's `Formatter.formatTime` with
the datefmt `'%Y-%m-%d %H:%M:%S'` that both text formatters pass to it
(lines 97 and 239); rendered here from epoch seconds in UTC with the civil
calendar algorithm.  Every claim below depends only on this function being
the same deterministic, escape-free function for both formatters, never on
the particular calendar values. -/
def formatTime (created : Nat) : String :=
  let secs := created % 86400
  let days := created / 86400
  let z := days + 719468
  let era := z / 146097
  let doe := z % 146097
  let yoe := (doe - doe / 1460 + doe / 36524 - doe / 146096) / 365
  let y := yoe + era * 400
  let doy := doe - (365 * yoe + yoe / 4 - yoe / 100)
  let mp := (5 * doy + 2) / 153
  let d := doy - (153 * mp + 2) / 5 + 1
  let m := if mp < 10 then mp + 3 else mp - 9
  let y := if m ≤ 2 then y + 1 else y
  pad4 y ++ "-" ++ pad2 m ++ "-" ++ pad2 d ++ " " ++
    pad2 (secs / 3600) ++ ":" ++ pad2 (secs % 3600 / 60) ++ ":" ++ pad2 (secs % 60)

/-- `%(levelname)-8s`: left-justified padding to width 8. -/
def pad8 (s : String) : String :=
  s ++ ⟨List.replicate (8 - s.length) ' '⟩

/-- The log-record shape consumed by the formatters: logger name, numeric
severity with its name, message (pre-rendered, as `record.getMessage()`
returns it), creation time, optional exception info together with the text
its standard trace representation renders to, the cached `exc_text`
attribute, `stack_info`, and the optional `raw_msg` extra attribute. -/
structure LogRecord where
  name : String
  levelno : Int
  levelname : String
  msg : String
  created : Nat
  excInfo : Bool
  excRepr : String
  excText : Option String
  stackInfo : Option String
  rawMsg : Option String
deriving DecidableEq, Repr

/-- Whether a string ends with a newline character (`s[-1:] == "\n"`). -/
def endsNL (s : String) : Bool := s.data.getLast? == some '\n'

/-- `if s[-1:] != "\n": s = s + "\n"` from `logging.Formatter.format`. -/
def ensureNL (s : String) : String := if endsNL s then s else s ++ "\n"

/-- Models the host facility's `logging.Formatter.format` (CPython stdlib):
render the header line from the (possibly modified) record, cache the
exception text if exception info is present and no text is cached, then
append the cached exception text and the stack info, each preceded by a
newline unless the string already ends with one.  Returns the output
together with the record state after the call (the cache write is a record
mutation). -/
def stdFormat (hdr : LogRecord → String) (r : LogRecord) : String × LogRecord :=
  let s0 := hdr r
  let r1 := if r.excInfo && !(optTruthy r.excText) then { r with excText := some r.excRepr } else r
  let s1 := if optTruthy r1.excText then ensureNL s0 ++ r1.excText.getD "" else s0
  let s2 := if optTruthy r1.stackInfo then ensureNL s1 ++ r1.stackInfo.getD "" else s1
  (s2, r1)

/-- The plain formatter's header prefix:
`'%(asctime)s [%(levelname)-8s] %(name)s: '` (line 96), up to the message. -/
def plainPre (r : LogRecord) : String :=
  formatTime r.created ++ " [" ++ pad8 r.levelname ++ "] " ++ r.name ++ ": "

/-- The plain formatter's full header: prefix followed by the message. -/
def plainHeaderR (r : LogRecord) : String :=
  plainPre r ++ r.msg

/-- ANSI escape for the accent colour (`c_accent`, line 230). -/
def cAccent : String := "\x1b[30;2m"

/-- ANSI escape for the logger-name colour (`c_name`, line 231). -/
def cName : String := "\x1b[34m"

/-- ANSI reset (`c_reset`, line 232). -/
def cReset : String := "\x1b[0m"

/-- The severity-to-escape-code table `c_levels` (lines 221-229). -/
def cLevels : List (Int × String) :=
  [(0, "\x1b[30;1m"),
   (10, "\x1b[35;1m"),
   (20, "\x1b[37;1m"),
   (25, "\x1b[32;1m"),
   (30, "\x1b[33;1m"),
   (40, "\x1b[31;1m"),
   (50, "\x1b[41;1m")]

/-- `self._formatters.get(record.levelno, self._formatters[logging.DEBUG])`
(line 263), projected onto the level colour embedded in the selected
formatter: the colour for the record's severity, defaulting to DEBUG's. -/
def colourCodeFor (lvl : Int) : String :=
  (cLevels.lookup lvl).getD ((cLevels.lookup 10).getD "")

/-- The colour formatter's header prefix: the format string of lines 237-238
up to the message, with the level colour chosen by severity. -/
def colourPre (r : LogRecord) : String :=
  cAccent ++ formatTime r.created ++ " [" ++ cReset ++ colourCodeFor r.levelno ++
    pad8 r.levelname ++ cReset ++ cAccent ++ "] " ++ cReset ++ cName ++ r.name ++
    cReset ++ cAccent ++ ": " ++ cReset

/-- The colour formatter's full header: prefix followed by the message. -/
def colourHeaderR (r : LogRecord) : String :=
  colourPre r ++ r.msg

/-- The colour formatter's exception block (lines 267-270): the plain block
wrapped in red/reset. -/
def colourExcText (e : String) : String :=
  "\x1b[31m" ++ plainExcText e ++ "\x1b[0m"

/-- The colour formatter's raw-payload block (lines 274-277): the plain
block wrapped in cyan/reset. -/
def colourRawBlock (p : String) : String :=
  "\x1b[36m" ++ rawBlock p ++ "\x1b[0m"

/-- `CustomFormatter.format` (lines 101-143): build the exception and raw
blocks, temporarily overwrite `exc_text` and append the raw block to
`msg`, delegate to the host `format`, and restore the record in `finally`.
Returns the output and the record state after the call. -/
def plainFormatSt (r : LogRecord) : String × LogRecord :=
  let excT : Option String := if r.excInfo then some (plainExcText r.excRepr) else none
  let rawT : Option String :=
    match r.rawMsg with
    | some p => some (rawBlock p)
    | none => none
  let r1 : LogRecord :=
    match excT with
    | some e => if e = "" then r else { r with excText := some e }
    | none => r
  let r2 : LogRecord :=
    match rawT with
    | some t => if t = "" then r1 else { r1 with msg := r1.msg ++ t }
    | none => r1
  let out := stdFormat plainHeaderR r2
  (out.1, { out.2 with msg := r.msg, excText := r.excText })

/-- The string returned by `CustomFormatter.format`. -/
def plainFormat (r : LogRecord) : String := (plainFormatSt r).1

/-- `CustomColourFormatter.format` (lines 243-290): as `plainFormatSt`, with
the severity-selected coloured header and colour-wrapped blocks. -/
def colourFormatSt (r : LogRecord) : String × LogRecord :=
  let excT : Option String := if r.excInfo then some (colourExcText r.excRepr) else none
  let rawT : Option String :=
    match r.rawMsg with
    | some p => some (colourRawBlock p)
    | none => none
  let r1 : LogRecord :=
    match excT with
    | some e => if e = "" then r else { r with excText := some e }
    | none => r
  let r2 : LogRecord :=
    match rawT with
    | some t => if t = "" then r1 else { r1 with msg := r1.msg ++ t }
    | none => r1
  let out := stdFormat colourHeaderR r2
  (out.1, { out.2 with msg := r.msg, excText := r.excText })

/-- The string returned by `CustomColourFormatter.format`. -/
def colourFormat (r : LogRecord) : String := (colourFormatSt r).1

/-- Scanner state machine for stripping ANSI SGR escape sequences: outside a
sequence, every character is kept except `ESC`, which switches to skipping;
inside a sequence, characters are skipped up to and including the
terminating `m`. -/
def stripGo : Bool → List Char → List Char
  | _, [] => []
  | true, c :: rest => if c == 'm' then stripGo false rest else stripGo true rest
  | false, c :: rest => if c == '\x1b' then stripGo true rest else c :: stripGo false rest

/-- Strip all ANSI escape sequences (`ESC [ ... m`) from a string. -/
def stripAnsi (s : String) : String := ⟨stripGo false s.data⟩

theorem rawBlock_sample : rawBlock "a\nb" = "\n  a\n  b\n" := by decide

theorem plainExcText_sample : plainExcText "x\ny" = "  x\n  y\n" := by decide

theorem stripAnsi_sample : stripAnsi "\x1b[30;2mab\x1b[0mc" = "abc" := by decide

theorem formatTime_sample : formatTime 0 = "1970-01-01 00:00:00" := by decide

/-! ### String and list infrastructure -/

/-- A string free of the ANSI escape character. -/
def noEsc (s : String) : Prop := ∀ c ∈ s.data, c ≠ '\x1b'

instance (s : String) : Decidable (noEsc s) := by
  unfold noEsc; infer_instance

theorem noEsc_append {a b : String} (ha : noEsc a) (hb : noEsc b) : noEsc (a ++ b) := by
  intro c hc
  rw [String.data_append] at hc
  rcases List.mem_append.1 hc with h | h
  · exact ha c h
  · exact hb c h

theorem stripGo_false_append_of_noEsc (a : List Char) (ha : ∀ c ∈ a, c ≠ '\x1b')
    (s : List Char) : stripGo false (a ++ s) = a ++ stripGo false s := by
  induction a with
  | nil => simp
  | cons c rest ih =>
    have hc : c ≠ '\x1b' := ha c (List.mem_cons_self ..)
    simp only [List.cons_append, stripGo]
    rw [if_neg (by simp [hc])]
    exact congrArg (c :: ·) (ih fun x hx => ha x (List.mem_cons_of_mem _ hx))

/-- Stripping distributes over a clean prefix. -/
theorem stripAnsi_clean_append {a : String} (ha : noEsc a) (s : String) :
    stripAnsi (a ++ s) = a ++ stripAnsi s := by
  apply String.ext
  rw [stripAnsi, stripAnsi, String.data_append]
  exact stripGo_false_append_of_noEsc a.data ha s.data

theorem stripAnsi_empty : stripAnsi "" = "" := rfl

theorem stripAnsi_clean {a : String} (ha : noEsc a) : stripAnsi a = a := by
  have := stripAnsi_clean_append ha ""
  rwa [String.append_empty, stripAnsi_empty, String.append_empty] at this

theorem stripGo_true_params (p : List Char) (hp : ∀ c ∈ p, c ≠ 'm') (s : List Char) :
    stripGo true (p ++ 'm' :: s) = stripGo false s := by
  induction p with
  | nil => simp [stripGo]
  | cons c rest ih =>
    have hc : c ≠ 'm' := hp c (List.mem_cons_self ..)
    simp only [List.cons_append, stripGo]
    rw [if_neg (by simp [hc])]
    exact ih fun x hx => hp x (List.mem_cons_of_mem _ hx)

/-- An SGR escape sequence: `ESC [ params m` with no `m` inside the params. -/
def sgrStr (params : String) : String := "\x1b[" ++ params ++ "m"

theorem stripAnsi_sgr_append (params : String) (hp : ∀ c ∈ params.data, c ≠ 'm')
    (s : String) : stripAnsi (sgrStr params ++ s) = stripAnsi s := by
  apply String.ext
  show stripGo false ((sgrStr params ++ s).data) = stripGo false s.data
  have hdata : (sgrStr params ++ s).data = '\x1b' :: '[' :: (params.data ++ 'm' :: s.data) := by
    simp [sgrStr, String.data_append]
  rw [hdata]
  simp only [stripGo, if_pos rfl, if_neg (by decide : ¬('[' == 'm') = true)]
  exact stripGo_true_params params.data hp s.data

/-- Any string literal equal to an SGR sequence strips away with its suffix. -/
theorem stripAnsi_lit_append {k : String} (params : String) (hk : k = sgrStr params)
    (hp : ∀ c ∈ params.data, c ≠ 'm') (s : String) :
    stripAnsi (k ++ s) = stripAnsi s :=
  hk ▸ stripAnsi_sgr_append params hp s

theorem colourCodeFor_mem (lvl : Int) :
    colourCodeFor lvl ∈ ["\x1b[30;1m", "\x1b[35;1m", "\x1b[37;1m", "\x1b[32;1m",
      "\x1b[33;1m", "\x1b[31;1m", "\x1b[41;1m"] := by
  unfold colourCodeFor cLevels
  simp only [List.lookup]
  repeat' split <;> simp_all

theorem stripAnsi_level_append (lvl : Int) (s : String) :
    stripAnsi (colourCodeFor lvl ++ s) = stripAnsi s := by
  have h := colourCodeFor_mem lvl
  simp only [List.mem_cons, List.not_mem_nil, or_false] at h
  rcases h with h | h | h | h | h | h | h <;> rw [h]
  · exact stripAnsi_lit_append "30;1" (by decide) (by decide) s
  · exact stripAnsi_lit_append "35;1" (by decide) (by decide) s
  · exact stripAnsi_lit_append "37;1" (by decide) (by decide) s
  · exact stripAnsi_lit_append "32;1" (by decide) (by decide) s
  · exact stripAnsi_lit_append "33;1" (by decide) (by decide) s
  · exact stripAnsi_lit_append "31;1" (by decide) (by decide) s
  · exact stripAnsi_lit_append "41;1" (by decide) (by decide) s

theorem stripAnsi_accent_append (s : String) : stripAnsi (cAccent ++ s) = stripAnsi s :=
  stripAnsi_lit_append "30;2" (by decide) (by decide) s

theorem stripAnsi_name_append (s : String) : stripAnsi (cName ++ s) = stripAnsi s :=
  stripAnsi_lit_append "34" (by decide) (by decide) s

theorem stripAnsi_reset_append (s : String) : stripAnsi (cReset ++ s) = stripAnsi s :=
  stripAnsi_lit_append "0" (by decide) (by decide) s

theorem stripAnsi_red_append (s : String) : stripAnsi ("\x1b[31m" ++ s) = stripAnsi s :=
  stripAnsi_lit_append "31" (by decide) (by decide) s

theorem stripAnsi_cyan_append (s : String) : stripAnsi ("\x1b[36m" ++ s) = stripAnsi s :=
  stripAnsi_lit_append "36" (by decide) (by decide) s

theorem digitChar_ne_esc (n : Nat) : digitChar n ≠ '\x1b' := by
  unfold digitChar
  have h : n % 10 < 10 := Nat.mod_lt _ (by norm_num)
  revert h
  generalize n % 10 = k
  intro h
  interval_cases k <;> decide

theorem noEsc_pad2 (n : Nat) : noEsc (pad2 n) := by
  intro c hc
  have hd : (pad2 n).data = [digitChar (n / 10), digitChar n] := rfl
  rw [hd] at hc
  rcases List.mem_cons.1 hc with rfl | hc
  · exact digitChar_ne_esc _
  rcases List.mem_cons.1 hc with rfl | hc
  · exact digitChar_ne_esc _
  cases hc

theorem noEsc_pad4 (n : Nat) : noEsc (pad4 n) := by
  intro c hc
  have hd : (pad4 n).data =
      [digitChar (n / 1000), digitChar (n / 100), digitChar (n / 10), digitChar n] := rfl
  rw [hd] at hc
  rcases List.mem_cons.1 hc with rfl | hc
  · exact digitChar_ne_esc _
  rcases List.mem_cons.1 hc with rfl | hc
  · exact digitChar_ne_esc _
  rcases List.mem_cons.1 hc with rfl | hc
  · exact digitChar_ne_esc _
  rcases List.mem_cons.1 hc with rfl | hc
  · exact digitChar_ne_esc _
  cases hc

theorem noEsc_formatTime (t : Nat) : noEsc (formatTime t) := by
  unfold formatTime
  repeat'
    first
    | exact noEsc_pad4 _
    | exact noEsc_pad2 _
    | apply noEsc_append
    | decide

theorem noEsc_pad8 {s : String} (hs : noEsc s) : noEsc (pad8 s) := by
  intro c hc
  unfold pad8 at hc
  rw [String.data_append] at hc
  rcases List.mem_append.1 hc with h | h
  · exact hs c h
  · have := List.eq_of_mem_replicate h
    subst this; decide

theorem mem_pyJoin_data {c : Char} {sep : String} :
    ∀ {ls : List String}, c ∈ (pyJoin sep ls).data → c ∈ sep.data ∨ ∃ l ∈ ls, c ∈ l.data := by
  intro ls
  induction ls with
  | nil => intro h; cases h
  | cons s rest ih =>
    cases rest with
    | nil => intro h; exact Or.inr ⟨s, by simp, h⟩
    | cons t ts =>
      intro h
      rw [show pyJoin sep (s :: t :: ts) = s ++ sep ++ pyJoin sep (t :: ts) from rfl,
        String.data_append, String.data_append] at h
      rcases List.mem_append.1 h with h' | h'
      · rcases List.mem_append.1 h' with h'' | h''
        · exact Or.inr ⟨s, by simp, h''⟩
        · exact Or.inl h''
      · rcases ih h' with h'' | ⟨l, hl, hcl⟩
        · exact Or.inl h''
        · exact Or.inr ⟨l, List.mem_cons_of_mem _ hl, hcl⟩

set_option maxHeartbeats 1000000 in
theorem splitLinesAux_flatten (l acc : List Char) :
    (splitLinesAux l acc).flatten = acc.reverse ++ l := by
  induction l, acc using splitLinesAux.induct with
  | case1 acc h => rw [splitLinesAux.eq_1, if_pos h]; simp [List.isEmpty_iff.1 h]
  | case2 acc h => rw [splitLinesAux.eq_1, if_neg h]; simp
  | case3 rest acc ih => rw [splitLinesAux.eq_2]; simp [ih]
  | case4 c rest acc hne hbr ih => rw [splitLinesAux.eq_3 _ _ _ hne, if_pos hbr]; simp [ih]
  | case5 c rest acc hne hbr ih => rw [splitLinesAux.eq_3 _ _ _ hne, if_neg hbr]; simp [ih]

theorem mem_of_mem_splitLinesAux {x : List Char} {l acc : List Char}
    (hx : x ∈ splitLinesAux l acc) {c : Char} (hc : c ∈ x) : c ∈ acc.reverse ++ l := by
  rw [← splitLinesAux_flatten l acc]
  exact List.mem_flatten.2 ⟨x, hx, hc⟩

theorem noEsc_indentBlock {s : String} (hs : noEsc s) : noEsc (indentBlock s) := by
  intro c hc
  unfold indentBlock at hc
  rw [String.data_append] at hc
  have hsp : ∀ d ∈ ("  " : String).data, d ≠ '\x1b' := by decide
  rcases List.mem_append.1 hc with h | h
  · exact hsp c h
  · rcases mem_pyJoin_data h with h' | ⟨line, hline, hcl⟩
    · exact hsp c h'
    · unfold splitlinesKeep at hline
      rcases List.mem_map.1 hline with ⟨l', hl', rfl⟩
      have := mem_of_mem_splitLinesAux hl' hcl
      simp only [List.reverse_nil, List.nil_append] at this
      exact hs c this

theorem noEsc_plainExcText {e : String} (he : noEsc e) : noEsc (plainExcText e) :=
  noEsc_append (noEsc_indentBlock he) (by decide)

theorem noEsc_rawBlock {p : String} (hp : noEsc p) : noEsc (rawBlock p) := by
  have h1 : noEsc "\n" := by decide
  exact noEsc_append (noEsc_append h1 (noEsc_indentBlock hp)) h1
theorem pyJoin_two_space (ls : List String) (h : ls ≠ []) :
    "  " ++ pyJoin "  " ls = concatStrs (ls.map fun l => "  " ++ l) := by
  induction ls with
  | nil => cases h rfl
  | cons s rest ih =>
    cases rest with
    | nil =>
      show "  " ++ s = ("  " ++ s) ++ concatStrs []
      rw [show concatStrs [] = "" from rfl, String.append_empty]
    | cons t ts =>
      have ih' := ih (by simp)
      show "  " ++ (s ++ "  " ++ pyJoin "  " (t :: ts)) =
        ("  " ++ s) ++ concatStrs ((t :: ts).map fun l => "  " ++ l)
      rw [← ih']
      simp [String.append_assoc]

theorem splitLinesAux_ne_nil (l acc : List Char) :
    l ≠ [] ∨ acc ≠ [] → splitLinesAux l acc ≠ [] := by
  induction l, acc using splitLinesAux.induct with
  | case1 acc hE =>
    intro h
    rcases h with h | h
    · cases h rfl
    · cases h (by simpa [List.isEmpty_iff] using hE)
  | case2 acc hE => intro _; rw [splitLinesAux.eq_1, if_neg hE]; simp
  | case3 rest acc ih => intro _; rw [splitLinesAux.eq_2]; simp
  | case4 c rest acc hne hbr ih =>
    intro _; rw [splitLinesAux.eq_3 _ _ _ hne, if_pos hbr]; simp
  | case5 c rest acc hne hbr ih =>
    intro _
    rw [splitLinesAux.eq_3 _ _ _ hne, if_neg hbr]
    exact ih (Or.inr (by simp))

theorem splitLinesAux_mem_ne_nil (l acc : List Char) :
    ∀ x ∈ splitLinesAux l acc, x ≠ [] := by
  induction l, acc using splitLinesAux.induct with
  | case1 acc hE =>
    intro x hx
    rw [splitLinesAux.eq_1] at hx
    by_cases h : acc.isEmpty
    · rw [if_pos h] at hx; cases hx
    · rw [if_neg h] at hx
      rcases List.mem_cons.1 hx with rfl | hx'
      · simpa [List.isEmpty_iff] using h
      · cases hx'
  | case2 acc hE =>
    intro x hx
    rw [splitLinesAux.eq_1, if_neg hE] at hx
    rcases List.mem_cons.1 hx with rfl | hx'
    · simpa [List.isEmpty_iff] using hE
    · cases hx'
  | case3 rest acc ih =>
    intro x hx
    rw [splitLinesAux.eq_2] at hx
    rcases List.mem_cons.1 hx with rfl | hx'
    · simp
    · exact ih x hx'
  | case4 c rest acc hne hbr ih =>
    intro x hx
    rw [splitLinesAux.eq_3 _ _ _ hne, if_pos hbr] at hx
    rcases List.mem_cons.1 hx with rfl | hx'
    · simp
    · exact ih x hx'
  | case5 c rest acc hne hbr ih =>
    intro x hx
    rw [splitLinesAux.eq_3 _ _ _ hne, if_neg hbr] at hx
    exact ih x hx

theorem data_ne_nil_of_ne_empty {s : String} (h : s ≠ "") : s.data ≠ [] := by
  intro hd
  exact h (String.ext (by simp [hd]))

theorem splitlinesKeep_ne_nil {s : String} (h : s ≠ "") : splitlinesKeep s ≠ [] := by
  unfold splitlinesKeep
  intro hmap
  exact splitLinesAux_ne_nil s.data [] (Or.inl (data_ne_nil_of_ne_empty h))
    (List.map_eq_nil_iff.1 hmap)

/-- Claim C2: for each of the seven registered severities the colour
formatter selects exactly the documented SGR colour code
(NOTSET=30;1, DEBUG=35;1, INFO=37;1, NOTICE=32;1, WARNING=33;1,
ERROR=31;1, CRITICAL=41;1), and every other severity falls back to the
DEBUG code 35;1. -/
theorem c2_colour_table :
    colourCodeFor 0 = "\x1b[30;1m" ∧
    colourCodeFor 10 = "\x1b[35;1m" ∧
    colourCodeFor 20 = "\x1b[37;1m" ∧
    colourCodeFor 25 = "\x1b[32;1m" ∧
    colourCodeFor 30 = "\x1b[33;1m" ∧
    colourCodeFor 40 = "\x1b[31;1m" ∧
    colourCodeFor 50 = "\x1b[41;1m" ∧
    ∀ lvl : Int, lvl ∉ ([0, 10, 20, 25, 30, 40, 50] : List Int) →
      colourCodeFor lvl = "\x1b[35;1m" := by
  refine ⟨by decide, by decide, by decide, by decide, by decide, by decide, by decide, ?_⟩
  intro lvl h
  simp only [List.mem_cons, List.not_mem_nil, or_false, not_or] at h
  obtain ⟨h0, h10, h20, h25, h30, h40, h50⟩ := h
  have e0 : (lvl == (0 : Int)) = false := beq_eq_false_iff_ne.2 h0
  have e10 : (lvl == (10 : Int)) = false := beq_eq_false_iff_ne.2 h10
  have e20 : (lvl == (20 : Int)) = false := beq_eq_false_iff_ne.2 h20
  have e25 : (lvl == (25 : Int)) = false := beq_eq_false_iff_ne.2 h25
  have e30 : (lvl == (30 : Int)) = false := beq_eq_false_iff_ne.2 h30
  have e40 : (lvl == (40 : Int)) = false := beq_eq_false_iff_ne.2 h40
  have e50 : (lvl == (50 : Int)) = false := beq_eq_false_iff_ne.2 h50
  simp [colourCodeFor, cLevels, List.lookup, e0, e10, e20, e25, e30, e40, e50]

/-- Witness for C2's fallback clause at the unregistered severity 17. -/
theorem c2_colour_table_witness :
    (17 : Int) ∉ ([0, 10, 20, 25, 30, 40, 50] : List Int) ∧
      colourCodeFor 17 = "\x1b[35;1m" :=
  ⟨by decide, c2_colour_table.2.2.2.2.2.2.2 17 (by decide)⟩

/-- Claim C3: the raw-payload block for the payload `"a\nb"` is exactly
`"\n  a\n  b\n"`, and in general the block is one leading newline, every
payload line (line ends kept) prefixed with two spaces, and one trailing
newline. -/
theorem c3_raw_block :
    rawBlock "a\nb" = "\n  a\n  b\n" ∧
    ∀ p : String, p ≠ "" →
      rawBlock p =
        "\n" ++ concatStrs ((splitlinesKeep p).map fun l => "  " ++ l) ++ "\n" := by
  refine ⟨by decide, ?_⟩
  intro p hp
  unfold rawBlock indentBlock
  rw [pyJoin_two_space _ (splitlinesKeep_ne_nil hp)]

/-- Witness for C3's general clause at the payload `"x\ny\n"`. -/
theorem c3_raw_block_witness :
    ("x\ny\n" : String) ≠ "" ∧
      rawBlock "x\ny\n" =
        "\n" ++ concatStrs ((splitlinesKeep "x\ny\n").map fun l => "  " ++ l) ++ "\n" :=
  ⟨by decide, c3_raw_block.2 "x\ny\n" (by decide)⟩

theorem pyJoin_snoc_suffix (sep : String) (ls : List String) (l : String) :
    ∃ Z : String, pyJoin sep (ls ++ [l]) = Z ++ l := by
  induction ls with
  | nil => exact ⟨"", (String.empty_append l).symm⟩
  | cons a as ih =>
    cases as with
    | nil => exact ⟨a ++ sep, rfl⟩
    | cons b bs =>
      obtain ⟨Z, hZ⟩ := ih
      refine ⟨a ++ sep ++ Z, ?_⟩
      have : pyJoin sep ((a :: b :: bs) ++ [l]) = a ++ sep ++ pyJoin sep ((b :: bs) ++ [l]) := rfl
      rw [this, hZ, String.append_assoc (a ++ sep)]

theorem splitlinesKeep_last_structure {s : String} (h : s ≠ "") :
    ∃ (ls : List String) (lst : String), splitlinesKeep s = ls ++ [lst] ∧
      lst.data ≠ [] ∧ lst.data.getLast? = s.data.getLast? := by
  have hnil : splitLinesAux s.data [] ≠ [] :=
    splitLinesAux_ne_nil _ _ (Or.inl (data_ne_nil_of_ne_empty h))
  rcases List.eq_nil_or_concat (splitLinesAux s.data []) with h' | ⟨L, lastL, h'⟩
  · exact absurd h' hnil
  rw [List.concat_eq_append] at h'
  have hlastne : lastL ≠ [] :=
    splitLinesAux_mem_ne_nil _ _ lastL (by rw [h']; simp)
  have hflat := splitLinesAux_flatten s.data []
  rw [h'] at hflat
  have hflat' : L.flatten ++ lastL = s.data := by simpa using hflat
  refine ⟨L.map (fun l => (⟨l⟩ : String)), ⟨lastL⟩, ?_, hlastne, ?_⟩
  · unfold splitlinesKeep
    rw [h']
    simp
  · rw [← hflat']
    exact (List.getLast?_append_of_ne_nil _ hlastne).symm

/-- Claim C4: the plain formatter's exception block consists of every line of
the standard trace representation prefixed with exactly two spaces, followed
by exactly one trailing newline (given a trace that, as the host library
guarantees, is nonempty and has its trailing newline stripped): the block's
last character is a newline while the character before it is not. -/
theorem c4_exception_block :
    ∀ e : String, e ≠ "" →
      (∀ c, e.data.getLast? = some c → isLineBreakChar c = false) →
      plainExcText e = concatStrs ((splitlinesKeep e).map fun l => "  " ++ l) ++ "\n" ∧
      (plainExcText e).data.getLast? = some '\n' ∧
      (plainExcText e).data.dropLast.getLast? ≠ some '\n' := by
  intro e he hlast
  refine ⟨?_, ?_, ?_⟩
  · unfold plainExcText indentBlock
    rw [pyJoin_two_space _ (splitlinesKeep_ne_nil he)]
  · show ((indentBlock e ++ "\n").data).getLast? = some '\n'
    rw [String.data_append]
    rw [List.getLast?_append_of_ne_nil _ (by simp : ("\n" : String).data ≠ [])]
    rfl
  · show ((indentBlock e ++ "\n").data).dropLast.getLast? ≠ some '\n'
    rw [String.data_append, show ("\n" : String).data = ['\n'] from rfl, List.dropLast_concat]
    obtain ⟨ls, lst, hsplit, hlne, hlg⟩ := splitlinesKeep_last_structure he
    obtain ⟨Z, hZ⟩ := pyJoin_snoc_suffix "  " ls lst
    have hdata : (indentBlock e).data = ("  " : String).data ++ (Z.data ++ lst.data) := by
      unfold indentBlock
      rw [hsplit, hZ, String.data_append, String.data_append]
    rw [hdata, List.getLast?_append_of_ne_nil _ (by simp [hlne]),
      List.getLast?_append_of_ne_nil _ hlne, hlg]
    cases hc : e.data.getLast? with
    | none => exact absurd (List.getLast?_eq_none_iff.1 hc) (data_ne_nil_of_ne_empty he)
    | some c =>
      intro heq
      have hcn : c = '\n' := by injection heq
      subst hcn
      have := hlast '\n' hc
      simp [isLineBreakChar] at this

/-- Witness for C4 at the trace text `"a\nb"`. -/
theorem c4_exception_block_witness :
    ("a\nb" : String) ≠ "" ∧
    (∀ c, ("a\nb" : String).data.getLast? = some c → isLineBreakChar c = false) ∧
    (plainExcText "a\nb" = concatStrs ((splitlinesKeep "a\nb").map fun l => "  " ++ l) ++ "\n" ∧
      (plainExcText "a\nb").data.getLast? = some '\n' ∧
      (plainExcText "a\nb").data.dropLast.getLast? ≠ some '\n') := by
  have hlast : ∀ c, ("a\nb" : String).data.getLast? = some c → isLineBreakChar c = false := by
    intro c hc
    have hcb : c = 'b' := by
      have : some 'b' = some c := hc ▸ rfl
      injection this with h
      exact h.symm
    subst hcb
    decide
  exact ⟨by decide, hlast, c4_exception_block "a\nb" (by decide) hlast⟩

/-- Claim C8: both text formatters restore the record's `msg` and cached
`exc_text` fields in their `finally` blocks (lines 140-143 and 287-290), so
after `format` returns the log event carries its original message and
cached exception text even when the formatter temporarily appended the
raw-payload block or overwrote the exception text. -/
theorem c8_record_restored :
    ∀ r : LogRecord,
      ((plainFormatSt r).2.msg = r.msg ∧ (plainFormatSt r).2.excText = r.excText) ∧
      ((colourFormatSt r).2.msg = r.msg ∧ (colourFormatSt r).2.excText = r.excText) := by
  intro r
  exact ⟨⟨rfl, rfl⟩, ⟨rfl, rfl⟩⟩

/-- `AsyncQueueHandler` (lines 478-544): the loop state and the queue
contents visible to the handler.  Modelled from the spec: the internal
`asyncio.Queue` is an unbounded FIFO queue, embedded as a list with
new items appended at the tail. -/
structure AsyncQueueHandler (α : Type) where
  loopClosed : Bool
  queue : List α
deriving DecidableEq, Repr

/-- `AsyncQueueHandler.emit` (lines 517-532): if the consumer's event loop
is closed, return immediately; otherwise format the record and put the
result into the queue. -/
def emit {α : Type} (fmt : LogRecord → α) (h : AsyncQueueHandler α) (r : LogRecord) :
    AsyncQueueHandler α :=
  if h.loopClosed then h else { h with queue := h.queue ++ [fmt r] }

/-- `AsyncQueueHandler.async_get` (lines 534-544): take the next message
from the head of the queue; `none` models the caller suspending on an
empty queue. -/
def asyncGet {α : Type} (h : AsyncQueueHandler α) : Option (α × AsyncQueueHandler α) :=
  match h.queue with
  | [] => none
  | m :: rest => some (m, { h with queue := rest })

theorem emit_foldl_queue {α : Type} (fmt : LogRecord → α) (rs : List LogRecord) :
    ∀ h : AsyncQueueHandler α, h.loopClosed = false →
      (rs.foldl (emit fmt) h).queue = h.queue ++ rs.map fmt := by
  induction rs with
  | nil => intro h hc; simp
  | cons x xs ih =>
    intro h hc
    have h1 : (emit fmt h x).loopClosed = false := by simp [emit, hc]
    have h2 : (emit fmt h x).queue = h.queue ++ [fmt x] := by simp [emit, hc]
    simp only [List.foldl_cons, List.map_cons]
    rw [ih _ h1, h2]
    simp

/-- Claim C9: when the consumer's loop is closed, `emit` is a silent no-op
(line 529) leaving the handler state, in particular the queue, unchanged;
when the loop is open, the formatted record is appended to the queue and
a sequence of emits preserves FIFO order. -/
theorem c9_emit_noop_and_fifo :
    ∀ (α : Type) (fmt : LogRecord → α) (h : AsyncQueueHandler α) (r : LogRecord)
      (rs : List LogRecord),
      (h.loopClosed = true → emit fmt h r = h) ∧
      (h.loopClosed = false →
        (emit fmt h r).queue = h.queue ++ [fmt r] ∧ (emit fmt h r).loopClosed = false) ∧
      (h.loopClosed = false → (rs.foldl (emit fmt) h).queue = h.queue ++ rs.map fmt) := by
  intro α fmt h r rs
  refine ⟨?_, ?_, ?_⟩
  · intro hc; simp [emit, hc]
  · intro hc; simp [emit, hc]
  · intro hc; exact emit_foldl_queue fmt rs h hc

/-- Witness for C9 with a closed handler, an open handler and two records. -/
theorem c9_emit_noop_and_fifo_witness :
    (AsyncQueueHandler.mk true ["z"] : AsyncQueueHandler String).loopClosed = true ∧
    emit (fun r => r.msg) (AsyncQueueHandler.mk true ["z"])
        (LogRecord.mk "n" 20 "INFO" "m1" 0 false "" none none none) =
      AsyncQueueHandler.mk true ["z"] ∧
    (AsyncQueueHandler.mk false ["z"] : AsyncQueueHandler String).loopClosed = false ∧
    ([LogRecord.mk "n" 20 "INFO" "m1" 0 false "" none none none,
      LogRecord.mk "n" 20 "INFO" "m2" 0 false "" none none none].foldl
        (emit fun r => r.msg) (AsyncQueueHandler.mk false ["z"])).queue =
      ["z"] ++ ["m1", "m2"] := by
  refine ⟨rfl, ?_, rfl, ?_⟩
  · exact (c9_emit_noop_and_fifo String (fun r => r.msg) (AsyncQueueHandler.mk true ["z"])
      (LogRecord.mk "n" 20 "INFO" "m1" 0 false "" none none none) []).1 rfl
  · exact (c9_emit_noop_and_fifo String (fun r => r.msg) (AsyncQueueHandler.mk false ["z"])
      (LogRecord.mk "n" 20 "INFO" "m1" 0 false "" none none none)
      [LogRecord.mk "n" 20 "INFO" "m1" 0 false "" none none none,
       LogRecord.mk "n" 20 "INFO" "m2" 0 false "" none none none]).2.2 rfl

/-- Modelled from the spec: the seven semantic embed colours of
`discord.Colour` used in `CustomEmbedFormatter.__init__` (lines 586-594). -/
inductive DColour where
  | darkGray
  | purple
  | defaultColour
  | green
  | yellow
  | red
  | darkRed
deriving DecidableEq, Repr

/-- The `_level_colours` table of `CustomEmbedFormatter.__init__`
(lines 586-594). -/
def levelColours : List (Int × DColour) :=
  [(0, DColour.darkGray),
   (10, DColour.purple),
   (20, DColour.defaultColour),
   (25, DColour.green),
   (30, DColour.yellow),
   (40, DColour.red),
   (50, DColour.darkRed)]

/-- Modelled from the spec: the rich-message object (`discord.Embed`)
returned by the notification formatter — title, description, optional
colour and timestamp.  The timestamp field carries the record's creation
time (its timezone conversion is outside the embedding). -/
structure Embed where
  title : String
  description : String
  colour : Option DColour
  timestamp : Nat
deriving DecidableEq, Repr

/-- `embed_description.replace(' (', '（')` (line 613): each occurrence
of space-then-parenthesis becomes one fullwidth left parenthesis. -/
def replParen1 : List Char → List Char
  | [] => []
  | ' ' :: '(' :: rest => '（' :: replParen1 rest
  | c :: rest => c :: replParen1 rest

/-- `embed_description.replace('(', '（')` (line 614). -/
def replParen2 : List Char → List Char
  | [] => []
  | '(' :: rest => '（' :: replParen2 rest
  | c :: rest => c :: replParen2 rest

/-- `re.sub(r'\.(?=\D)', '․', embed_description)` (line 615): a dot is
replaced by a one-dot leader exactly when the next character exists and is
not a digit. -/
def dotSub : List Char → List Char
  | [] => []
  | '.' :: c :: rest => if c.isDigit then '.' :: dotSub (c :: rest) else '․' :: dotSub (c :: rest)
  | c :: rest => c :: dotSub rest

/-- The punctuation-substitution pass of `CustomEmbedFormatter.format`
(lines 611-615), in source order. -/
def applySubstitutions (s : String) : String :=
  ⟨dotSub (replParen2 (replParen1 s.data))⟩

/-- Python slice `s[:n]` (by code points). -/
def pyTake (s : String) (n : Nat) : String := ⟨s.data.take n⟩

/-- The `truncated_suffix` of `CustomEmbedFormatter.format` (line 622). -/
def truncatedSuffix : String := "...\n(truncated)```"

/-- The message and exception code blocks of `CustomEmbedFormatter.format`
(lines 600-609): the non-empty message in a `profile` code block, then the
trace in a second code block when exception info is present. -/
def embedCodeBlocks (r : LogRecord) : String :=
  let d1 := if r.msg.length > 0 then "```profile\n" ++ r.msg ++ "```" else ""
  if r.excInfo then d1 ++ ("```profile\n" ++ r.excRepr ++ "```") else d1

/-- The assembled description before truncation (lines 600-619): code
blocks, the substitution pass when non-empty, then the raw payload
appended as a multi-line quote. -/
def embedDescription (r : LogRecord) : String :=
  let d2 := embedCodeBlocks r
  let d3 := if d2.length > 0 then applySubstitutions d2 else d2
  match r.rawMsg with
  | some p => d3 ++ ("\n>>> " ++ p)
  | none => d3

/-- `CustomEmbedFormatter.format` (lines 596-630): title from level name
and logger name, severity-looked-up colour (no fallback), description
truncated to 4096 characters with the marker when it exceeds the limit. -/
def embedFormat (r : LogRecord) : Embed :=
  let desc := embedDescription r
  let desc2 :=
    if desc.length > 4096 then pyTake desc (4096 - truncatedSuffix.length) ++ truncatedSuffix
    else desc
  ⟨"**" ++ r.levelname ++ "** - " ++ r.name, desc2, levelColours.lookup r.levelno, r.created⟩

theorem embedFormat_description_of_le {r : LogRecord}
    (hlen : (embedDescription r).length ≤ 4096) :
    (embedFormat r).description = embedDescription r := by
  unfold embedFormat
  simp [Nat.not_lt.2 hlen]

/-- Claim C10: for a severity outside the seven registered values the
notification formatter's colour lookup (`self._level_colours.get`, line
598) yields nothing, so the embed's colour is absent rather than falling
back to the DEBUG entry. -/
theorem c10_embed_colour_absent :
    ∀ r : LogRecord, r.levelno ∉ ([0, 10, 20, 25, 30, 40, 50] : List Int) →
      (embedFormat r).colour = none := by
  intro r h
  simp only [List.mem_cons, List.not_mem_nil, or_false, not_or] at h
  obtain ⟨h0, h10, h20, h25, h30, h40, h50⟩ := h
  have e0 : (r.levelno == (0 : Int)) = false := beq_eq_false_iff_ne.2 h0
  have e10 : (r.levelno == (10 : Int)) = false := beq_eq_false_iff_ne.2 h10
  have e20 : (r.levelno == (20 : Int)) = false := beq_eq_false_iff_ne.2 h20
  have e25 : (r.levelno == (25 : Int)) = false := beq_eq_false_iff_ne.2 h25
  have e30 : (r.levelno == (30 : Int)) = false := beq_eq_false_iff_ne.2 h30
  have e40 : (r.levelno == (40 : Int)) = false := beq_eq_false_iff_ne.2 h40
  have e50 : (r.levelno == (50 : Int)) = false := beq_eq_false_iff_ne.2 h50
  unfold embedFormat
  simp [levelColours, List.lookup, e0, e10, e20, e25, e30, e40, e50]

/-- Witness for C10 at the unregistered severity 17. -/
theorem c10_embed_colour_absent_witness :
    (LogRecord.mk "n" 17 "L17" "m" 0 false "" none none none).levelno ∉
        ([0, 10, 20, 25, 30, 40, 50] : List Int) ∧
      (embedFormat (LogRecord.mk "n" 17 "L17" "m" 0 false "" none none none)).colour = none :=
  ⟨by decide, c10_embed_colour_absent _ (by decide)⟩

/-- Claim C5: when the assembled description exceeds 4096 characters the
notification formatter truncates it (lines 621-623) so that the final
description has length exactly 4096 and ends with the truncation marker,
whose own tail is the closing code-block fence; a description of length at
most 4096 is left unchanged. -/
theorem c5_description_truncation :
    ∀ r : LogRecord,
      ((embedDescription r).length > 4096 →
        (embedFormat r).description.length = 4096 ∧
        ∃ p : String, (embedFormat r).description = p ++ truncatedSuffix) ∧
      ((embedDescription r).length ≤ 4096 →
        (embedFormat r).description = embedDescription r) ∧
      truncatedSuffix = "...\n(truncated)" ++ "```" := by
  intro r
  refine ⟨?_, fun h => embedFormat_description_of_le h, by decide⟩
  intro hgt
  have hdesc : (embedFormat r).description =
      pyTake (embedDescription r) (4096 - truncatedSuffix.length) ++ truncatedSuffix := by
    unfold embedFormat
    simp [hgt]
  have hsuf : truncatedSuffix.length = 18 := by decide
  have htake : (pyTake (embedDescription r) (4096 - truncatedSuffix.length)).length = 4078 := by
    show (List.take (4096 - truncatedSuffix.length) (embedDescription r).data).length = 4078
    rw [List.length_take, hsuf]
    have hlen : (embedDescription r).data.length > 4096 := hgt
    omega
  refine ⟨?_, ⟨pyTake (embedDescription r) (4096 - truncatedSuffix.length), hdesc⟩⟩
  rw [hdesc, String.length_append, htake, hsuf]

/-- A 4100-character raw payload used to exercise the truncation branch. -/
def bigPayload : String := ⟨List.replicate 4100 'a'⟩

theorem embedDescription_raw_only (p : String) :
    embedDescription (LogRecord.mk "n" 20 "INFO" "" 0 false "" none none (some p)) =
      "\n>>> " ++ p := by
  unfold embedDescription embedCodeBlocks
  simp

/-- Witness for C5: a record whose assembled description has 4105
characters, exercising the truncation clause through the theorem. -/
theorem c5_description_truncation_witness :
    (embedDescription (LogRecord.mk "n" 20 "INFO" "" 0 false "" none none (some bigPayload))).length
        > 4096 ∧
    ((embedFormat (LogRecord.mk "n" 20 "INFO" "" 0 false "" none none
          (some bigPayload))).description.length = 4096 ∧
      ∃ p : String,
        (embedFormat (LogRecord.mk "n" 20 "INFO" "" 0 false "" none none
          (some bigPayload))).description = p ++ truncatedSuffix) := by
  have hlen :
      (embedDescription (LogRecord.mk "n" 20 "INFO" "" 0 false "" none none
        (some bigPayload))).length = 4105 := by
    rw [embedDescription_raw_only, String.length_append]
    have h1 : ("\n>>> " : String).length = 5 := by decide
    have h2 : bigPayload.length = 4100 := by
      show (List.replicate 4100 'a').length = 4100
      exact List.length_replicate ..
    rw [h1, h2]
  exact ⟨by rw [hlen]; norm_num,
    (c5_description_truncation _).1 (by rw [hlen]; norm_num)⟩

/-- Checker for the dot-substitution contract: every `'.'` that has a
successor character is followed by a digit. -/
def dotOk : List Char → Bool
  | [] => true
  | [_] => true
  | c1 :: c2 :: rest => (!(c1 == '.') || c2.isDigit) && dotOk (c2 :: rest)

theorem replParen2_no_paren : ∀ l : List Char, '(' ∉ replParen2 l := by
  intro l
  induction l using replParen2.induct with
  | case1 => simp [replParen2]
  | case2 rest ih =>
    rw [show replParen2 ('(' :: rest) = '（' :: replParen2 rest from rfl]
    simp only [List.mem_cons, not_or]
    exact ⟨by decide, ih⟩
  | case3 c rest hne ih =>
    rw [replParen2.eq_3 _ _ hne]
    simp only [List.mem_cons, not_or]
    refine ⟨?_, ih⟩
    intro h
    exact hne h.symm

theorem mem_dotSub {c : Char} : ∀ {l : List Char}, c ∈ dotSub l → c ∈ l ∨ c = '․' := by
  intro l
  induction l using dotSub.induct with
  | case1 => intro h; cases h
  | case2 c2 rest hd ih =>
    intro h
    rw [dotSub.eq_2, if_pos hd] at h
    rcases List.mem_cons.1 h with rfl | h'
    · exact Or.inl (List.mem_cons_self ..)
    · rcases ih h' with h'' | h''
      · exact Or.inl (List.mem_cons_of_mem _ h'')
      · exact Or.inr h''
  | case3 c2 rest hd ih =>
    intro h
    rw [dotSub.eq_2, if_neg hd] at h
    rcases List.mem_cons.1 h with rfl | h'
    · exact Or.inr rfl
    · rcases ih h' with h'' | h''
      · exact Or.inl (List.mem_cons_of_mem _ h'')
      · exact Or.inr h''
  | case4 c1 rest hne ih =>
    intro h
    rw [dotSub.eq_3 _ _ hne] at h
    rcases List.mem_cons.1 h with rfl | h'
    · exact Or.inl (List.mem_cons_self ..)
    · rcases ih h' with h'' | h''
      · exact Or.inl (List.mem_cons_of_mem _ h'')
      · exact Or.inr h''

theorem dotSub_cons_of_ne {c : Char} (hc : c ≠ '.') (rest : List Char) :
    dotSub (c :: rest) = c :: dotSub rest :=
  dotSub.eq_3 c rest fun _ _ hcc _ => absurd hcc hc

theorem dotOk_cons_of_ne {a : Char} (ha : a ≠ '.') (l : List Char) :
    dotOk (a :: l) = dotOk l := by
  cases l with
  | nil => rfl
  | cons x xs =>
    rw [show dotOk (a :: x :: xs) = ((!(a == '.') || x.isDigit) && dotOk (x :: xs)) from rfl]
    have hb : (a == '.') = false := beq_eq_false_iff_ne.2 ha
    rw [hb]
    simp

theorem dotOk_dotSub : ∀ l : List Char, dotOk (dotSub l) = true := by
  intro l
  induction l using dotSub.induct with
  | case1 => rfl
  | case2 c2 rest hd ih =>
    rw [dotSub.eq_2, if_pos hd]
    have hc2 : c2 ≠ '.' := by
      intro h
      rw [h] at hd
      exact absurd hd (by decide)
    rw [dotSub_cons_of_ne hc2]
    show ((!('.' == '.') || c2.isDigit) && dotOk (c2 :: dotSub rest)) = true
    rw [← dotSub_cons_of_ne hc2]
    simp [hd, ih]
  | case3 c2 rest hd ih =>
    rw [dotSub.eq_2, if_neg hd, dotOk_cons_of_ne (by decide)]
    exact ih
  | case4 c1 rest hne ih =>
    by_cases hc : c1 = '.'
    · subst hc
      cases rest with
      | nil => rw [dotSub.eq_3 _ _ hne, dotSub.eq_1]; rfl
      | cons x xs => exact (hne x xs rfl rfl).elim
    · rw [dotSub_cons_of_ne hc, dotOk_cons_of_ne hc]
      exact ih

theorem applySubstitutions_no_paren (s : String) : '(' ∉ (applySubstitutions s).data := by
  intro h
  rcases mem_dotSub h with h' | h'
  · exact replParen2_no_paren _ h'
  · cases h'

theorem applySubstitutions_dotOk (s : String) : dotOk (applySubstitutions s).data = true :=
  dotOk_dotSub _

/-- Counterexample to C6 as stated: for a record whose only content is the
raw payload `"("`, the returned description is `"\n>>> ("` — the
parenthesis in the description survives unsubstituted, because the raw
payload is appended after the substitution pass. -/
theorem c6_counterexample :
    (embedFormat (LogRecord.mk "n" 20 "INFO" "" 0 false "" none none (some "("))).description =
        "\n>>> (" ∧
      '(' ∈ (embedFormat (LogRecord.mk "n" 20 "INFO" "" 0 false "" none none
        (some "("))).description.data := by
  constructor
  · decide
  · decide

/-- Claim C6 (amended): the substitution pass applies to the code-block
portion of the description and never to the title: the title is built
verbatim from the level name and logger name (line 597), and — provided
the record carries no raw payload (which is appended after the pass) and
the description is not truncated (the marker is appended after the pass
too) — the returned description contains no left parenthesis and every
remaining dot is followed by a digit. -/
theorem c6_substitution_scope :
    ∀ r : LogRecord,
      (embedFormat r).title = "**" ++ r.levelname ++ "** - " ++ r.name ∧
      (r.rawMsg = none → (embedDescription r).length ≤ 4096 →
        '(' ∉ (embedFormat r).description.data ∧
          dotOk (embedFormat r).description.data = true) := by
  intro r
  refine ⟨rfl, ?_⟩
  intro hraw hlen
  rw [embedFormat_description_of_le hlen]
  have hdesc : embedDescription r =
      (if (embedCodeBlocks r).length > 0 then applySubstitutions (embedCodeBlocks r)
       else embedCodeBlocks r) := by
    unfold embedDescription
    rw [hraw]
  rw [hdesc]
  by_cases hd : (embedCodeBlocks r).length > 0
  · rw [if_pos hd]
    exact ⟨applySubstitutions_no_paren _, applySubstitutions_dotOk _⟩
  · rw [if_neg hd]
    have hnil : embedCodeBlocks r = "" := by
      apply String.ext
      have h0 : (embedCodeBlocks r).data.length = 0 := Nat.eq_zero_of_not_pos hd
      exact List.eq_nil_of_length_eq_zero h0
    rw [hnil]
    exact ⟨by decide, rfl⟩

/-- Witness for C6's scoped clause at a record whose message contains the
substituted punctuation. -/
theorem c6_substitution_scope_witness :
    (LogRecord.mk "lg" 20 "INFO" "a (b. c" 0 false "" none none none).rawMsg = none ∧
    (embedDescription (LogRecord.mk "lg" 20 "INFO" "a (b. c" 0 false "" none none none)).length
        ≤ 4096 ∧
    ('(' ∉ (embedFormat (LogRecord.mk "lg" 20 "INFO" "a (b. c" 0 false ""
        none none none)).description.data ∧
      dotOk (embedFormat (LogRecord.mk "lg" 20 "INFO" "a (b. c" 0 false ""
        none none none)).description.data = true) :=
  ⟨rfl, by decide, (c6_substitution_scope _).2 rfl (by decide)⟩

/-- The environment and filesystem state inspected by `is_docker` and
`stream_supports_colour` (lines 293-390): environment markers, the
platform string, whether `/.dockerenv` exists, whether `/proc/self/cgroup`
is a file, and the lines `open` yields for it — `none` models a file that
exists but cannot be opened, in which case `open` raises. -/
structure ColourEnv where
  pycharmHosted : Bool
  termProgram : Option String
  platform : String
  ansicon : Bool
  wtSession : Bool
  dockerenvExists : Bool
  cgroupIsFile : Bool
  cgroupLines : Option (List String)
deriving DecidableEq, Repr

/-- The stream argument of `stream_supports_colour`: whether it has an
`isatty` member and what that member returns. -/
structure StreamInfo where
  hasIsatty : Bool
  isatty : Bool
deriving DecidableEq, Repr

/-- Substring containment over character lists (Python's `in`). -/
def startsWithL : List Char → List Char → Bool
  | [], _ => true
  | _ :: _, [] => false
  | n :: ns, h :: hs => n == h && startsWithL ns hs

/-- `needle in hay` for strings, by scanning every suffix. -/
def hasSub (needle : List Char) : List Char → Bool
  | [] => startsWithL needle []
  | h :: hs => startsWithL needle (h :: hs) || hasSub needle hs

/-- `is_docker` (lines 331-332): `/.dockerenv` existing, or the cgroup
file existing and containing a line mentioning docker.  `os.path.exists`
and `os.path.isfile` never raise, but `open` on an existing yet unreadable
file does — modelled by `Except.error`. -/
def is_docker (env : ColourEnv) : Except Unit Bool :=
  if env.dockerenvExists then Except.ok true
  else if env.cgroupIsFile then
    match env.cgroupLines with
    | none => Except.error ()
    | some lines => Except.ok (lines.any fun line => hasSub "docker".data line.data)
  else Except.ok false

/-- `stream_supports_colour` (lines 378-390): IDE-terminal markers first
(returning TTY-ness), otherwise on non-Windows platforms a TTY or a docker
container, and on Windows a TTY together with a terminal-emulator marker.
The `or` on line 386 short-circuits, so `is_docker` only runs on a
non-TTY stream. -/
def stream_supports_colour (env : ColourEnv) (st : StreamInfo) : Except Unit Bool :=
  let isATty := st.hasIsatty && st.isatty
  if env.pycharmHosted || (env.termProgram == some "vscode") then Except.ok isATty
  else if env.platform != "win32" then
    if isATty then Except.ok true else is_docker env
  else Except.ok (isATty && (env.ansicon || env.wtSession))

/-- Counterexample to C7 as stated: on a non-Windows platform with a
non-interactive stream, no IDE markers, no `/.dockerenv`, and a cgroup
file that exists but cannot be opened, the query propagates the error
instead of degrading to `false`. -/
theorem c7_counterexample :
    stream_supports_colour (ColourEnv.mk false none "linux" false false false true none)
        (StreamInfo.mk false false) = Except.error () := rfl

/-- Claim C7 (amended): the colour-capability query is total — it returns
a boolean and raises nothing — for every environment in which the cgroup
marker file, when it exists as a file, is readable; only an existing but
unreadable marker file makes the query propagate the error. -/
theorem c7_supports_colour_total :
    ∀ (env : ColourEnv) (st : StreamInfo),
      (env.cgroupIsFile = true → env.cgroupLines ≠ none) →
      ∃ b : Bool, stream_supports_colour env st = Except.ok b := by
  intro env st hread
  unfold stream_supports_colour is_docker
  by_cases h1 : (env.pycharmHosted || (env.termProgram == some "vscode")) = true
  · rw [if_pos h1]
    exact ⟨_, rfl⟩
  · rw [if_neg h1]
    by_cases h2 : (env.platform != "win32") = true
    · rw [if_pos h2]
      by_cases h3 : (st.hasIsatty && st.isatty) = true
      · rw [if_pos h3]
        exact ⟨true, rfl⟩
      · rw [if_neg h3]
        by_cases h4 : env.dockerenvExists = true
        · rw [if_pos h4]
          exact ⟨true, rfl⟩
        · rw [if_neg h4]
          by_cases h5 : env.cgroupIsFile = true
          · rw [if_pos h5]
            cases hl : env.cgroupLines with
            | none => exact absurd hl (hread h5)
            | some lines => exact ⟨_, rfl⟩
          · rw [if_neg h5]
            exact ⟨false, rfl⟩
    · rw [if_neg h2]
      exact ⟨_, rfl⟩

/-- Witness for C7 (amended) on a plain Linux terminal environment. -/
theorem c7_supports_colour_total_witness :
    ((ColourEnv.mk false none "linux" false false false false none).cgroupIsFile = true →
      (ColourEnv.mk false none "linux" false false false false none).cgroupLines ≠ none) ∧
    ∃ b : Bool,
      stream_supports_colour (ColourEnv.mk false none "linux" false false false false none)
        (StreamInfo.mk true true) = Except.ok b :=
  ⟨by decide,
    c7_supports_colour_total (ColourEnv.mk false none "linux" false false false false none)
      (StreamInfo.mk true true) (by decide)⟩

theorem append_lit_ne_empty {a b : String} (hb : b.data ≠ []) : a ++ b ≠ "" := by
  intro h
  have h2 : (a ++ b).data = [] := by rw [h]
  rw [String.data_append] at h2
  exact hb (List.append_eq_nil.1 h2).2

theorem plainExcText_ne_empty (e : String) : plainExcText e ≠ "" := by
  unfold plainExcText
  exact append_lit_ne_empty (by decide)

theorem rawBlock_ne_empty (p : String) : rawBlock p ≠ "" := by
  unfold rawBlock
  exact append_lit_ne_empty (by decide)

theorem colourExcText_ne_empty (e : String) : colourExcText e ≠ "" := by
  unfold colourExcText
  exact append_lit_ne_empty (by decide)

theorem colourRawBlock_ne_empty (p : String) : colourRawBlock p ≠ "" := by
  unfold colourRawBlock
  exact append_lit_ne_empty (by decide)

@[simp]
theorem optTruthy_some_ne {s : String} (h : s ≠ "") : optTruthy (some s) = true := by
  simp [optTruthy, h]

theorem endsNL_append_of_ne {a b : String} (hb : b.data ≠ []) :
    endsNL (a ++ b) = endsNL b := by
  unfold endsNL
  rw [String.data_append, List.getLast?_append_of_ne_nil _ hb]

theorem endsNL_append_of_empty {a b : String} (hb : b.data = []) :
    endsNL (a ++ b) = endsNL a := by
  unfold endsNL
  rw [String.data_append, hb, List.append_nil]

theorem endsNL_plainPre (r : LogRecord) : endsNL (plainPre r) = false := by
  unfold plainPre
  rw [endsNL_append_of_ne (by decide)]
  decide

theorem endsNL_colourPre (r : LogRecord) : endsNL (colourPre r) = false := by
  unfold colourPre
  rw [endsNL_append_of_ne (by decide)]
  decide

/-- The plain and colour headers agree on whether they end in a newline:
on a non-empty message both end with the message's last character, and on
an empty message they end with `' '` and `'m'` respectively. -/
theorem endsNL_headers (r : LogRecord) :
    endsNL (plainHeaderR r) = endsNL (colourHeaderR r) := by
  unfold plainHeaderR colourHeaderR
  by_cases hm : r.msg.data = []
  · rw [endsNL_append_of_empty hm, endsNL_append_of_empty hm, endsNL_plainPre, endsNL_colourPre]
  · rw [endsNL_append_of_ne hm, endsNL_append_of_ne hm]

/-- Stripping the colour header prefix of any record yields the plain
header prefix (the field order and textual content are identical). -/
theorem strip_colourPre (r : LogRecord) (hname : noEsc r.name) (hlevel : noEsc r.levelname)
    (X : String) : stripAnsi (colourPre r ++ X) = plainPre r ++ stripAnsi X := by
  unfold colourPre plainPre
  simp only [String.append_assoc]
  rw [stripAnsi_accent_append]
  rw [stripAnsi_clean_append (noEsc_formatTime r.created)]
  rw [stripAnsi_clean_append (show noEsc " [" by decide)]
  rw [stripAnsi_reset_append]
  rw [stripAnsi_level_append]
  rw [stripAnsi_clean_append (noEsc_pad8 hlevel)]
  rw [stripAnsi_reset_append, stripAnsi_accent_append]
  rw [stripAnsi_clean_append (show noEsc "] " by decide)]
  rw [stripAnsi_reset_append, stripAnsi_name_append]
  rw [stripAnsi_clean_append hname]
  rw [stripAnsi_reset_append, stripAnsi_accent_append]
  rw [stripAnsi_clean_append (show noEsc ": " by decide)]
  rw [stripAnsi_reset_append]

theorem stripAnsi_colourExc_append {e : String} (he : noEsc e) (s : String) :
    stripAnsi (colourExcText e ++ s) = plainExcText e ++ stripAnsi s := by
  unfold colourExcText
  simp only [String.append_assoc]
  rw [stripAnsi_red_append, stripAnsi_clean_append (noEsc_plainExcText he)]
  show plainExcText e ++ stripAnsi (cReset ++ s) = plainExcText e ++ stripAnsi s
  rw [stripAnsi_reset_append]

theorem stripAnsi_colourExc {e : String} (he : noEsc e) :
    stripAnsi (colourExcText e) = plainExcText e := by
  have h := stripAnsi_colourExc_append he ""
  rwa [String.append_empty, stripAnsi_empty, String.append_empty] at h

theorem stripAnsi_colourRaw_append {p : String} (hp : noEsc p) (s : String) :
    stripAnsi (colourRawBlock p ++ s) = rawBlock p ++ stripAnsi s := by
  unfold colourRawBlock
  simp only [String.append_assoc]
  rw [stripAnsi_cyan_append, stripAnsi_clean_append (noEsc_rawBlock hp)]
  show rawBlock p ++ stripAnsi (cReset ++ s) = rawBlock p ++ stripAnsi s
  rw [stripAnsi_reset_append]

theorem stripAnsi_colourRaw {p : String} (hp : noEsc p) :
    stripAnsi (colourRawBlock p) = rawBlock p := by
  have h := stripAnsi_colourRaw_append hp ""
  rwa [String.append_empty, stripAnsi_empty, String.append_empty] at h

/-- Counterexample to C1 as stated: for a record carrying both a raw
payload and exception info, the plain output and the ANSI-stripped colour
output differ.  The plain message ends with the raw block's newline, so
the host `format` inserts no separator before the exception block, while
the colour message ends with the raw block's reset escape, so a newline is
inserted; after stripping, the colour output keeps that extra newline. -/
theorem c1_counterexample :
    plainFormat (LogRecord.mk "n" 20 "INFO" "m" 0 true "E" none none (some "R")) ≠
      stripAnsi (colourFormat (LogRecord.mk "n" 20 "INFO" "m" 0 true "E" none none (some "R"))) := by
  decide

/-- All the record's textual fields are free of the ANSI escape character,
so that stripping escapes from the colour output removes exactly the
formatter-inserted sequences. -/
def noEscOpt : Option String → Prop
  | none => True
  | some s => noEsc s

instance (o : Option String) : Decidable (noEscOpt o) := by
  unfold noEscOpt
  cases o <;> infer_instance

def cleanRecord (r : LogRecord) : Prop :=
  noEsc r.name ∧ noEsc r.levelname ∧ noEsc r.msg ∧ noEsc r.excRepr ∧
    noEscOpt r.excText ∧ noEscOpt r.stackInfo ∧ noEscOpt r.rawMsg

instance (r : LogRecord) : Decidable (cleanRecord r) := by
  unfold cleanRecord
  infer_instance

/-- The record does not combine a raw payload with a trailing section, nor
exception info with stack info: in those combinations the plain header
ends with the raw (or exception) block's newline while the colour header
ends with a reset escape, so the host `format` inserts a newline into the
colour output only. -/
def noSectionClash (r : LogRecord) : Prop :=
  (r.rawMsg ≠ none →
    r.excInfo = false ∧ optTruthy r.excText = false ∧ optTruthy r.stackInfo = false) ∧
  (r.excInfo = true → optTruthy r.stackInfo = false)

instance (r : LogRecord) : Decidable (noSectionClash r) := by
  unfold noSectionClash
  infer_instance

theorem optTruthy_some_iff {c : String} : optTruthy (some c) = true ↔ c ≠ "" := by
  simp [optTruthy]

theorem endsNL_pre_msg (r1 r2 : LogRecord) (hm : r1.msg = r2.msg) :
    endsNL (plainHeaderR r1) = endsNL (colourHeaderR r2) := by
  unfold plainHeaderR colourHeaderR
  rw [← hm]
  by_cases hd : r1.msg.data = []
  · rw [endsNL_append_of_empty hd, endsNL_append_of_empty hd, endsNL_plainPre, endsNL_colourPre]
  · rw [endsNL_append_of_ne hd, endsNL_append_of_ne hd]

theorem ensureNL_of_true {s : String} (h : endsNL s = true) : ensureNL s = s := by
  simp [ensureNL, h]

theorem ensureNL_of_false {s : String} (h : endsNL s = false) : ensureNL s = s ++ "\n" := by
  simp [ensureNL, h]

theorem plainPre_eq_of (R1 R2 : LogRecord) (h1 : R1.name = R2.name)
    (h2 : R1.levelname = R2.levelname) (h3 : R1.created = R2.created) :
    plainPre R1 = plainPre R2 := by
  unfold plainPre
  rw [h1, h2, h3]

theorem strip_headers (R1 R2 : LogRecord) (h1 : R1.name = R2.name)
    (h2 : R1.levelname = R2.levelname) (h3 : R1.created = R2.created)
    (h4 : R1.msg = R2.msg) (hname : noEsc R2.name) (hlevel : noEsc R2.levelname)
    (hmsg : noEsc R2.msg) (X : String) :
    stripAnsi (colourHeaderR R2 ++ X) = plainHeaderR R1 ++ stripAnsi X := by
  unfold colourHeaderR plainHeaderR
  rw [String.append_assoc, strip_colourPre R2 hname hlevel, stripAnsi_clean_append hmsg,
    plainPre_eq_of R1 R2 h1 h2 h3, h4, String.append_assoc]

theorem strip_headers_nil (R1 R2 : LogRecord) (h1 : R1.name = R2.name)
    (h2 : R1.levelname = R2.levelname) (h3 : R1.created = R2.created)
    (h4 : R1.msg = R2.msg) (hname : noEsc R2.name) (hlevel : noEsc R2.levelname)
    (hmsg : noEsc R2.msg) :
    stripAnsi (colourHeaderR R2) = plainHeaderR R1 := by
  have h := strip_headers R1 R2 h1 h2 h3 h4 hname hlevel hmsg ""
  rwa [String.append_empty, stripAnsi_empty, String.append_empty] at h

theorem strip_ensureNL_header (R1 R2 : LogRecord) (h1 : R1.name = R2.name)
    (h2 : R1.levelname = R2.levelname) (h3 : R1.created = R2.created)
    (h4 : R1.msg = R2.msg) (hname : noEsc R2.name) (hlevel : noEsc R2.levelname)
    (hmsg : noEsc R2.msg) (Y : String) :
    stripAnsi (ensureNL (colourHeaderR R2) ++ Y) = ensureNL (plainHeaderR R1) ++ stripAnsi Y := by
  by_cases hNL : endsNL (plainHeaderR R1) = true
  · have hNLc : endsNL (colourHeaderR R2) = true := by
      rw [← endsNL_pre_msg R1 R2 h4]
      exact hNL
    rw [ensureNL_of_true hNL, ensureNL_of_true hNLc,
      strip_headers R1 R2 h1 h2 h3 h4 hname hlevel hmsg Y]
  · have hNL' : endsNL (plainHeaderR R1) = false := Bool.not_eq_true _ ▸ eq_false_of_ne_true hNL
    have hNLc : endsNL (colourHeaderR R2) = false := by
      rw [← endsNL_pre_msg R1 R2 h4]
      exact hNL'
    rw [ensureNL_of_false hNL', ensureNL_of_false hNLc, String.append_assoc,
      strip_headers R1 R2 h1 h2 h3 h4 hname hlevel hmsg ("\n" ++ Y),
      stripAnsi_clean_append (show noEsc "\n" by decide), String.append_assoc]

theorem strip_section (R1 R2 : LogRecord) (h1 : R1.name = R2.name)
    (h2 : R1.levelname = R2.levelname) (h3 : R1.created = R2.created)
    (h4 : R1.msg = R2.msg) (hname : noEsc R2.name) (hlevel : noEsc R2.levelname)
    (hmsg : noEsc R2.msg) (tp tc : String) (htc : stripAnsi tc = tp) :
    ensureNL (plainHeaderR R1) ++ tp = stripAnsi (ensureNL (colourHeaderR R2) ++ tc) := by
  rw [strip_ensureNL_header R1 R2 h1 h2 h3 h4 hname hlevel hmsg tc, htc]

theorem strip_two_sections (R1 R2 : LogRecord) (h1 : R1.name = R2.name)
    (h2 : R1.levelname = R2.levelname) (h3 : R1.created = R2.created)
    (h4 : R1.msg = R2.msg) (hname : noEsc R2.name) (hlevel : noEsc R2.levelname)
    (hmsg : noEsc R2.msg) (t1 : String) (ht1 : t1.data ≠ []) (ht1c : noEsc t1)
    (tp2 tc2 : String) (htc2 : stripAnsi tc2 = tp2) :
    ensureNL (ensureNL (plainHeaderR R1) ++ t1) ++ tp2 =
      stripAnsi (ensureNL (ensureNL (colourHeaderR R2) ++ t1) ++ tc2) := by
  have hinP : endsNL (ensureNL (plainHeaderR R1) ++ t1) = endsNL t1 := endsNL_append_of_ne ht1
  have hinC : endsNL (ensureNL (colourHeaderR R2) ++ t1) = endsNL t1 := endsNL_append_of_ne ht1
  by_cases h2NL : endsNL t1 = true
  · rw [ensureNL_of_true (hinP.trans h2NL), ensureNL_of_true (hinC.trans h2NL),
      String.append_assoc, String.append_assoc,
      strip_ensureNL_header R1 R2 h1 h2 h3 h4 hname hlevel hmsg (t1 ++ tc2),
      stripAnsi_clean_append ht1c, htc2]
  · have h2NL' : endsNL t1 = false := Bool.not_eq_true _ ▸ eq_false_of_ne_true h2NL
    rw [ensureNL_of_false (hinP.trans h2NL'), ensureNL_of_false (hinC.trans h2NL')]
    rw [String.append_assoc, String.append_assoc, String.append_assoc, String.append_assoc,
      strip_ensureNL_header R1 R2 h1 h2 h3 h4 hname hlevel hmsg (t1 ++ ("\n" ++ tc2)),
      stripAnsi_clean_append ht1c,
      stripAnsi_clean_append (show noEsc "\n" by decide), htc2]

/-- Claim C1 (amended): for every record whose textual fields are free of
the ANSI escape character and which does not combine a raw payload with a
trailing section (exception, cached exception text or stack info) nor
exception info with stack info, the plain formatter's output equals the
colour formatter's output with all ANSI escape sequences stripped: same
field order and same textual content, including the exception and raw
blocks.  In the excluded combinations the outputs differ by exactly the
extra newline exhibited by `c1_counterexample`. -/
theorem c1_strip_equivalence :
    ∀ r : LogRecord, cleanRecord r → noSectionClash r →
      plainFormat r = stripAnsi (colourFormat r) := by
  intro r hclean hclash
  obtain ⟨nm, lvl, lnm, m, cr, ei, er, et, si, rm⟩ := r
  have hname : noEsc nm := hclean.1
  have hlevel : noEsc lnm := hclean.2.1
  have hmsg : noEsc m := hclean.2.2.1
  have hexcr : noEsc er := hclean.2.2.2.1
  have hcache : noEscOpt et := hclean.2.2.2.2.1
  have hstackc : noEscOpt si := hclean.2.2.2.2.2.1
  have hrawc : noEscOpt rm := hclean.2.2.2.2.2.2
  cases rm with
  | some p =>
    obtain ⟨hei, het, hsi⟩ := hclash.1 (by simp)
    have hei' : ei = false := hei
    have het' : optTruthy et = false := het
    have hsi' : optTruthy si = false := hsi
    subst hei'
    have hp : noEsc p := hrawc
    simp only [plainFormat, colourFormat, plainFormatSt, colourFormatSt, stdFormat,
      Bool.false_and, Bool.false_eq_true, if_false, ite_false, het', hsi',
      if_neg (rawBlock_ne_empty p), if_neg (colourRawBlock_ne_empty p)]
    unfold plainHeaderR colourHeaderR
    rw [strip_colourPre _ hname hlevel]
    rw [stripAnsi_clean_append hmsg, stripAnsi_colourRaw hp]
    rfl
  | none =>
    cases ei with
    | true =>
      have hsi' : optTruthy si = false := hclash.2 rfl
      simp [plainFormat, colourFormat, plainFormatSt, colourFormatSt, stdFormat,
        hsi', plainExcText_ne_empty er, colourExcText_ne_empty er,
        optTruthy_some_ne (plainExcText_ne_empty er),
        optTruthy_some_ne (colourExcText_ne_empty er)]
      exact strip_section _ _ rfl rfl rfl rfl hname hlevel hmsg _ _
        (stripAnsi_colourExc hexcr)
    | false =>
      by_cases het : optTruthy et = true
      · cases et with
        | none => simp [optTruthy] at het
        | some c =>
          have hcE : c ≠ "" := optTruthy_some_iff.1 het
          have hcclean : noEsc c := hcache
          have hcd : c.data ≠ [] := data_ne_nil_of_ne_empty hcE
          by_cases hsit : optTruthy si = true
          · cases si with
            | none => simp [optTruthy] at hsit
            | some st =>
              have hstE : st ≠ "" := optTruthy_some_iff.1 hsit
              have hstclean : noEsc st := hstackc
              simp [plainFormat, colourFormat, plainFormatSt, colourFormatSt,
                stdFormat, optTruthy_some_ne hcE, optTruthy_some_ne hstE]
              exact strip_two_sections _ _ rfl rfl rfl rfl hname hlevel hmsg c hcd hcclean
                st st (stripAnsi_clean hstclean)
          · have hsif : optTruthy si = false := Bool.not_eq_true _ ▸ eq_false_of_ne_true hsit
            simp [plainFormat, colourFormat, plainFormatSt, colourFormatSt,
              stdFormat, optTruthy_some_ne hcE, hsif]
            exact strip_section _ _ rfl rfl rfl rfl hname hlevel hmsg c c
              (stripAnsi_clean hcclean)
      · have hetf : optTruthy et = false := Bool.not_eq_true _ ▸ eq_false_of_ne_true het
        by_cases hsit : optTruthy si = true
        · cases si with
          | none => simp [optTruthy] at hsit
          | some st =>
            have hstE : st ≠ "" := optTruthy_some_iff.1 hsit
            have hstclean : noEsc st := hstackc
            simp [plainFormat, colourFormat, plainFormatSt, colourFormatSt,
              stdFormat, hetf, optTruthy_some_ne hstE]
            exact strip_section _ _ rfl rfl rfl rfl hname hlevel hmsg st st
              (stripAnsi_clean hstclean)
        · have hsif : optTruthy si = false := Bool.not_eq_true _ ▸ eq_false_of_ne_true hsit
          simp [plainFormat, colourFormat, plainFormatSt, colourFormatSt,
            stdFormat, hetf, hsif]
          exact (strip_headers_nil _ _ rfl rfl rfl rfl hname hlevel hmsg).symm

/-- Witness for C1 (amended) at a simple escape-free record with exception
info only. -/
theorem c1_strip_equivalence_witness :
    cleanRecord (LogRecord.mk "app.db" 40 "ERROR" "boom" 7 true "Trace: x" none none none) ∧
    noSectionClash (LogRecord.mk "app.db" 40 "ERROR" "boom" 7 true "Trace: x" none none none) ∧
    plainFormat (LogRecord.mk "app.db" 40 "ERROR" "boom" 7 true "Trace: x" none none none) =
      stripAnsi (colourFormat
        (LogRecord.mk "app.db" 40 "ERROR" "boom" 7 true "Trace: x" none none none)) :=
  ⟨by decide, by decide,
    c1_strip_equivalence (LogRecord.mk "app.db" 40 "ERROR" "boom" 7 true "Trace: x" none none none)
      (by decide) (by decide)⟩

